import Mathlib

/-!
Verification of the batch-processing core of a Stable Diffusion web UI
(`modules/processing.py`).  Every definition below is a shallow embedding of a
function or code path of that file; machine integers are modelled as `ℤ`/`ℕ`
(Python integers are unbounded), Python floats appearing in arithmetic that the
claims touch are modelled as `ℚ`, fallible code paths return `Option`/`Except`,
and external collaborators (the sampler, the VAE, OpenCV blurs, the random
number generator) are abstract parameters.
-/

namespace Processing

/-! ## Seed resolution and expansion (`get_fixed_seed`, `process_images_inner`) -/

/-- A Python value supplied as `seed` / `subseed`: an integer, `None`, the
empty string, or a list of integers. -/
inductive SeedArg where
  | int (n : ℤ)
  | pynone
  | emptyStr
  | list (xs : List ℤ)
deriving DecidableEq

/-- Embedding of `get_fixed_seed` (processing.py lines 732-736):
`if seed is None or seed == "" or seed == -1: return int(random.randrange(4294967294))`.
The value drawn by `random.randrange(4294967294)` is the parameter `rand`;
call sites constrain it to `[0, 4294967294)`. -/
def get_fixed_seed (rand : ℕ) : SeedArg → SeedArg
  | .int n => if n = -1 then .int rand else .int n
  | .pynone => .int rand
  | .emptyStr => .int rand
  | .list xs => .list xs

/-- Embedding of `setup_prompts` for a scalar prompt (processing.py line 437):
`self.all_prompts = self.batch_size * self.n_iter * [self.prompt]`. -/
def setup_prompts_scalar (prompt : String) (batch_size n_iter : ℕ) : List String :=
  List.replicate (batch_size * n_iter) prompt

/-- Embedding of the scalar-seed expansion (processing.py lines 920-923):
`p.all_seeds = [int(seed) + (x if p.subseed_strength == 0 else 0) for x in range(len(p.all_prompts))]`. -/
def all_seeds_of (seed : ℤ) (subseed_strength : ℚ) (num_images : ℕ) : List ℤ :=
  (List.range num_images).map fun (x : ℕ) => seed + (if subseed_strength = 0 then (x : ℤ) else 0)

/-- Embedding of the scalar-subseed expansion (processing.py line 928):
`p.all_subseeds = [int(subseed) + x for x in range(len(p.all_prompts))]`. -/
def all_subseeds_of (subseed : ℤ) (num_images : ℕ) : List ℤ :=
  (List.range num_images).map fun (x : ℕ) => subseed + (x : ℤ)

/-! ## Conditioning cache (`StableDiffusionProcessing.get_conds_with_caching`) -/

/-- One cache slot: the pair `[cached_params, result]` of the source
(`cached_uc = [None, None]` initially).  `param` is the composite key stored in
`cache[0]`, `value` the tensor stored in `cache[1]`. -/
structure CondCacheSlot (K V : Type) where
  param : Option K
  value : Option V
deriving DecidableEq

/-- The composite cache key built in `get_conds_with_caching`
(processing.py lines 473-483): prompts, steps, CLIP-skip setting, checkpoint
identity, extra-network data, SDXL crop offsets, width and height. -/
structure CondCacheKey where
  required_prompts : List String
  steps : ℕ
  clip_stop_at_last_layers : ℕ
  sd_checkpoint_info : String
  extra_network_data : String
  sdxl_crop_left : ℕ
  sdxl_crop_top : ℕ
  width : ℕ
  height : ℕ
deriving DecidableEq

/-- The scan `for cache in caches: if cache[0] is not None and cached_params == cache[0]`
(processing.py lines 485-487): the first slot whose stored key equals the
current key. -/
def find_cache_hit [DecidableEq K] (key : K) : List (CondCacheSlot K V) → Option (CondCacheSlot K V)
  | [] => none
  | c :: rest => if c.param = some key then some c else find_cache_hit key rest

/-- Embedding of `get_conds_with_caching` (processing.py lines 458-495).
Returns the produced value, the updated slot list, and the number of times the
compute `function` was invoked.  On a hit the stored `cache[1]` is returned
unchanged; on a miss `function` runs once and key and result are written into
`caches[0]` (`caches` empty raises `IndexError` there, modelled as `.error`). -/
def get_conds_with_caching [DecidableEq K] (function : K → V) (key : K)
    (caches : List (CondCacheSlot K V)) :
    Except String (Option V × List (CondCacheSlot K V) × ℕ) :=
  match find_cache_hit key caches with
  | some c => .ok (c.value, caches, 0)
  | none =>
    match caches with
    | [] => .error "IndexError"
    | _ :: rest => .ok (some (function key), ⟨some key, some (function key)⟩ :: rest, 1)

/-- C1: entering `process_images_inner` with scalar seed and subseed, a seed of
`-1`/`None`/`""` is replaced by the drawn random value (which lies in the large
positive range `[0, 4294967294)`) and any other seed passes through unchanged;
`all_seeds` then gets one entry per image with `all_seeds[i] = seed + i` when
`subseed_strength == 0` and `all_seeds[i] = seed` when `subseed_strength > 0`,
while `all_subseeds[i] = subseed + i` in both cases; in particular
`batch_size=2, n_iter=1, seed=42, subseed_strength=0` yields `all_seeds = [42, 43]`. -/
theorem C1_seed_resolution_and_expansion
    (rand : ℕ) (hrand : rand < 4294967294)
    (s sub : ℤ) (strength : ℚ) (prompt : String) (batch_size n_iter i : ℕ)
    (hi : i < batch_size * n_iter) :
    (get_fixed_seed rand .pynone = .int rand ∧
     get_fixed_seed rand .emptyStr = .int rand ∧
     get_fixed_seed rand (.int (-1)) = .int rand ∧
     (0 : ℤ) ≤ (rand : ℤ) ∧ (rand : ℤ) < 4294967294) ∧
    (s ≠ -1 → get_fixed_seed rand (.int s) = .int s) ∧
    ((all_seeds_of s strength (setup_prompts_scalar prompt batch_size n_iter).length).length =
        batch_size * n_iter ∧
     (all_subseeds_of sub (setup_prompts_scalar prompt batch_size n_iter).length).length =
        batch_size * n_iter ∧
     (strength = 0 →
       (all_seeds_of s strength (setup_prompts_scalar prompt batch_size n_iter).length)[i]? =
         some (s + i)) ∧
     (0 < strength →
       (all_seeds_of s strength (setup_prompts_scalar prompt batch_size n_iter).length)[i]? =
         some s) ∧
     (all_subseeds_of sub (setup_prompts_scalar prompt batch_size n_iter).length)[i]? =
       some (sub + i)) ∧
    all_seeds_of 42 0 (setup_prompts_scalar "p" 2 1).length = [42, 43] := by
  have hlen : (setup_prompts_scalar prompt batch_size n_iter).length = batch_size * n_iter := by
    rw [setup_prompts_scalar, List.length_replicate]
  refine ⟨⟨rfl, rfl, rfl, Int.natCast_nonneg rand, by exact_mod_cast hrand⟩, ?_, ⟨?_, ?_, ?_, ?_, ?_⟩, ?_⟩
  · intro hs
    simp [get_fixed_seed, hs]
  · rw [hlen, all_seeds_of, List.length_map, List.length_range]
  · rw [hlen, all_subseeds_of, List.length_map, List.length_range]
  · intro h0
    rw [hlen, all_seeds_of]
    simp [List.getElem?_map, List.getElem?_range, hi, h0]
  · intro hpos
    rw [hlen, all_seeds_of]
    simp [List.getElem?_map, List.getElem?_range, hi, ne_of_gt hpos]
  · rw [hlen, all_subseeds_of]
    simp [List.getElem?_map, List.getElem?_range, hi]
  · rfl

/-- C1 witness: the theorem applied at `rand = 7`, `seed = 42`, `subseed = 5`,
`subseed_strength = 0`, `batch_size = 2`, `n_iter = 1`, image index `i = 1`. -/
theorem C1_seed_resolution_and_expansion_witness :
    (all_seeds_of 42 0 (setup_prompts_scalar "p" 2 1).length)[1]? = some (42 + 1) :=
  ((C1_seed_resolution_and_expansion 7 (by norm_num) 42 5 0 "p" 2 1 1
    (by norm_num)).2.2.1.2.2.1 rfl)

/-- C2: on the conditioning cache, a slot holding exactly the composite key
returns the stored tensor with the compute function not invoked; otherwise the
compute function is invoked exactly once and key and result are stored into the
first slot; across two calls with the same key the compute function runs at
most once, and changing a key component (e.g. the step count) forces
recomputation. -/
theorem C2_cond_cache (V : Type) (f : CondCacheKey → V) (key : CondCacheKey)
    (caches : List (CondCacheSlot CondCacheKey V))
    (c0 : CondCacheSlot CondCacheKey V) (rest : List (CondCacheSlot CondCacheKey V)) :
    (∀ c, find_cache_hit key caches = some c →
      get_conds_with_caching f key caches = .ok (c.value, caches, 0)) ∧
    (find_cache_hit key (c0 :: rest) = none →
      get_conds_with_caching f key (c0 :: rest) =
        .ok (some (f key), ⟨some key, some (f key)⟩ :: rest, 1)) ∧
    (caches ≠ [] →
      ∀ v1 caches1 n1 v2 caches2 n2,
        get_conds_with_caching f key caches = .ok (v1, caches1, n1) →
        get_conds_with_caching f key caches1 = .ok (v2, caches2, n2) →
        n1 + n2 ≤ 1) ∧
    (∀ key2 v1 caches1 n1, key2.steps ≠ key.steps →
      get_conds_with_caching f key [⟨none, none⟩] = .ok (v1, caches1, n1) →
      ∃ v2 caches2, get_conds_with_caching f key2 caches1 = .ok (v2, caches2, 1)) := by
  refine ⟨?_, ?_, ?_, ?_⟩
  · intro c hc
    simp [get_conds_with_caching, hc]
  · intro hmiss
    simp [get_conds_with_caching, hmiss]
  · intro hne v1 caches1 n1 v2 caches2 n2 h1 h2
    match hfind : find_cache_hit key caches with
    | some c =>
      simp only [get_conds_with_caching, hfind, Except.ok.injEq, Prod.mk.injEq] at h1
      obtain ⟨h1v, h1c, h1n⟩ := h1
      rw [← h1c] at h2
      simp only [get_conds_with_caching, hfind, Except.ok.injEq, Prod.mk.injEq] at h2
      omega
    | none =>
      match caches, hne with
      | d0 :: drest, _ =>
        simp only [get_conds_with_caching, hfind, Except.ok.injEq, Prod.mk.injEq] at h1
        obtain ⟨h1v, h1c, h1n⟩ := h1
        have hhit :
            find_cache_hit key
              ((⟨some key, some (f key)⟩ : CondCacheSlot CondCacheKey V) :: drest) =
              some ⟨some key, some (f key)⟩ := by
          simp [find_cache_hit]
        rw [← h1c] at h2
        simp only [get_conds_with_caching, hhit, Except.ok.injEq, Prod.mk.injEq] at h2
        omega
  · intro key2 v1 caches1 n1 hsteps h1
    have hmiss0 : find_cache_hit key [(⟨none, none⟩ : CondCacheSlot CondCacheKey V)] = none := by
      simp [find_cache_hit]
    simp only [get_conds_with_caching, hmiss0, Except.ok.injEq, Prod.mk.injEq] at h1
    obtain ⟨h1v, h1c, h1n⟩ := h1
    have hkne : key ≠ key2 := fun h => hsteps (congrArg CondCacheKey.steps h.symm)
    have hmiss2 :
        find_cache_hit key2 [(⟨some key, some (f key)⟩ : CondCacheSlot CondCacheKey V)] =
          none := by
      simp [find_cache_hit, hkne]
    rw [← h1c]
    exact ⟨some (f key2), [⟨some key2, some (f key2)⟩],
      by simp [get_conds_with_caching, hmiss2]⟩

/-- C2 witness: a fresh single-slot cache at a concrete key computes once and a
second call with a key differing only in the step count computes again. -/
theorem C2_cond_cache_witness :
    get_conds_with_caching (fun _ => (7 : ℕ))
      (⟨["a"], 20, 1, "ckpt", "", 0, 0, 512, 512⟩ : CondCacheKey)
      [(⟨none, none⟩ : CondCacheSlot CondCacheKey ℕ)] =
      .ok (some 7,
        [⟨some (⟨["a"], 20, 1, "ckpt", "", 0, 0, 512, 512⟩ : CondCacheKey), some 7⟩], 1) ∧
    ∃ v2 caches2,
      get_conds_with_caching (fun _ => (7 : ℕ))
        (⟨["a"], 30, 1, "ckpt", "", 0, 0, 512, 512⟩ : CondCacheKey)
        [(⟨some (⟨["a"], 20, 1, "ckpt", "", 0, 0, 512, 512⟩ : CondCacheKey), some 7⟩ :
            CondCacheSlot CondCacheKey ℕ)] =
        .ok (v2, caches2, 1) := by
  constructor
  · exact (C2_cond_cache ℕ (fun _ => 7) ⟨["a"], 20, 1, "ckpt", "", 0, 0, 512, 512⟩
      [⟨none, none⟩] ⟨none, none⟩ []).2.1 (by simp [find_cache_hit])
  · exact (C2_cond_cache ℕ (fun _ => 7) ⟨["a"], 20, 1, "ckpt", "", 0, 0, 512, 512⟩
      [⟨none, none⟩] ⟨none, none⟩ []).2.2.2
      ⟨["a"], 30, 1, "ckpt", "", 0, 0, 512, 512⟩ (some 7)
      [⟨some ⟨["a"], 20, 1, "ckpt", "", 0, 0, 512, 512⟩, some 7⟩] 1
      (by norm_num) (by simp [get_conds_with_caching, find_cache_hit])

/-! ## Infotext parameter line (`create_infotext`, lines 823-835) -/

/-- Python `c in s` for a single-character needle `c`: some character of `s`
equals `c`. -/
def py_char_in (s : String) (c : Char) : Bool := s.data.any fun d => d = c

/-- A Python value of a generation-parameters entry, as the claims exercise
them: a string or an integer (`"Tiling": "True"`, `"Steps": 20`). -/
inductive PVal where
  | str (s : String)
  | num (n : ℤ)
deriving DecidableEq

/-- Python `str(text)` on a `PVal`. -/
def pvalStr : PVal → String
  | .str s => s
  | .num n => toString n

/-- One escaped character of `json.dumps(·, ensure_ascii=False)` output. -/
def jsonEscapeChar (c : Char) : String :=
  if c = '"' then "\\\""
  else if c = '\\' then "\\\\"
  else if c = '\n' then "\\n"
  else if c = '\t' then "\\t"
  else if c = '\r' then "\\r"
  else if c = Char.ofNat 8 then "\\b"
  else if c = Char.ofNat 12 then "\\f"
  else if c.toNat < 32 then
    "\\u00" ++ String.mk [Nat.digitChar (c.toNat / 16), Nat.digitChar (c.toNat % 16)]
  else String.singleton c

/-- `json.dumps(text, ensure_ascii=False)`: a JSON string literal for strings,
the plain decimal rendering for integers. -/
def jsonDumps : PVal → String
  | .str s => "\"" ++ String.join (s.data.map jsonEscapeChar) ++ "\""
  | .num n => toString n

/-- Embedding of the local `quote` of `create_infotext` (lines 823-827): text
without a comma, newline or colon is returned as is (and rendered by `str` in
the f-string), anything else is JSON-encoded. -/
def quote (text : PVal) : String :=
  if ¬py_char_in (pvalStr text) ',' ∧ ¬py_char_in (pvalStr text) '\n' ∧
      ¬py_char_in (pvalStr text) ':' then
    pvalStr text
  else jsonDumps text

/-- One entry of the joined list (line 831): `k if k == v else f"{k}: {quote(v)}"`. -/
def infotext_entry (k : String) (v : PVal) : String :=
  if v = PVal.str k then k else k ++ ": " ++ quote v

/-- Embedding of `generation_params_text` (lines 829-835): the comma-space join
over the mapping in order, entries with value `None` dropped. -/
def generation_params_text (params : List (String × Option PVal)) : String :=
  String.intercalate ", "
    (params.filterMap fun kv => kv.2.map fun v => infotext_entry kv.1 v)

/-- C4: the infotext parameter line joins the entries in mapping order with
`", "`; a `None` value is omitted; a key equal to its value renders as the bare
key; every other entry renders as `key: value`, the value JSON-string-quoted
exactly when its string form contains a comma, newline or colon and rendered
plainly otherwise; `{"Steps": 20, "Tiling": "True"}` gives
`"Steps: 20, Tiling: True"`, the value `a,b` is JSON-quoted, the value `ab`
is bare. -/
theorem C4_infotext_formatting (k k2 : String) (v v2 : PVal)
    (rest : List (String × Option PVal)) (s : String) :
    generation_params_text ((k, none) :: rest) = generation_params_text rest ∧
    infotext_entry k (PVal.str k) = k ∧
    quote (PVal.str s) =
      (if py_char_in s ',' ∨ py_char_in s '\n' ∨ py_char_in s ':' then
        jsonDumps (PVal.str s)
      else s) ∧
    (v ≠ PVal.str k → infotext_entry k v = k ++ ": " ++ quote v) ∧
    generation_params_text [(k, some v), (k2, some v2)] =
      infotext_entry k v ++ ", " ++ infotext_entry k2 v2 ∧
    generation_params_text [("Steps", some (PVal.num 20)), ("Tiling", some (PVal.str "True"))] =
      "Steps: 20, Tiling: True" ∧
    quote (PVal.str "a,b") = "\"a,b\"" ∧
    quote (PVal.str "ab") = "ab" := by
  refine ⟨?_, ?_, ?_, ?_, ?_, ?_, ?_, ?_⟩
  · simp [generation_params_text]
  · simp [infotext_entry]
  · simp only [quote, pvalStr]
    by_cases h1 : py_char_in s ','
    · simp [h1]
    · by_cases h2 : py_char_in s '\n'
      · simp [h1, h2]
      · by_cases h3 : py_char_in s ':'
        · simp [h1, h2, h3]
        · simp [h1, h2, h3]
  · intro hne
    simp [infotext_entry, hne]
  · simp [generation_params_text, String.intercalate, String.intercalate.go]
  · decide
  · decide
  · decide

/-- C4 witness: the rule applied to the entry `("Steps", 20)` followed by a
dropped `("Size", None)` entry, with a non-bare value. -/
theorem C4_infotext_formatting_witness :
    generation_params_text [("Size", none), ("Steps", some (PVal.num 20))] =
      generation_params_text [("Steps", some (PVal.num 20))] ∧
    infotext_entry "Steps" (PVal.num 20) = "Steps" ++ ": " ++ quote (PVal.num 20) := by
  constructor
  · exact (C4_infotext_formatting "Size" "k" (PVal.num 0) (PVal.num 0)
      [("Steps", some (PVal.num 20))] "").1
  · exact (C4_infotext_formatting "Steps" "k" (PVal.num 20) (PVal.num 0) [] "").2.2.2.1
      (by simp)

/-! ## Inpainting mask blur (`StableDiffusionProcessingImg2Img.init`, lines 1661-1671) -/

/-- The kernel size of the source: `kernel_size = 2 * int(2.5 * self.mask_blur_x + 0.5) + 1`.
For a nonnegative integer radius, `int(2.5*r + 0.5)` equals `(5*r + 1) / 2`
in natural-number division (Python `int` truncates toward zero). -/
def gaussian_kernel_size (radius : ℕ) : ℕ := 2 * ((5 * radius + 1) / 2) + 1

/-- The kernel size as the claim words it: `2 * ceil(2.5*radius + 0.5) + 1`.
Modelled from the spec sentence, for comparison against the source's
`gaussian_kernel_size`. -/
def claimed_kernel_size (radius : ℕ) : ℤ := 2 * ⌈(2.5 * radius + 0.5 : ℚ)⌉ + 1

/-- The external OpenCV blurs: `blurH ks σ` stands for
`cv2.GaussianBlur(mask, (ks, 1), σ)` and `blurV ks σ` for
`cv2.GaussianBlur(mask, (1, ks), σ)`. -/
structure GaussianBlurOps (Mask : Type) where
  blurH : ℕ → ℕ → Mask → Mask
  blurV : ℕ → ℕ → Mask → Mask

/-- Embedding of the two blur blocks of img2img `init` (lines 1661-1671): the
horizontal pass runs only when `mask_blur_x > 0`, with kernel size derived from
`mask_blur_x`; then the vertical pass runs only when `mask_blur_y > 0`, with
kernel size derived from `mask_blur_y`. -/
def apply_mask_blur (ops : GaussianBlurOps Mask) (mask_blur_x mask_blur_y : ℕ)
    (image_mask : Mask) : Mask :=
  let m1 :=
    if mask_blur_x > 0 then
      ops.blurH (gaussian_kernel_size mask_blur_x) mask_blur_x image_mask
    else image_mask
  if mask_blur_y > 0 then ops.blurV (gaussian_kernel_size mask_blur_y) mask_blur_y m1 else m1

/-- C7 counterexample: at radius 2 the source computes a kernel of size
`2 * int(2.5*2 + 0.5) + 1 = 11`, while the claim's formula
`2 * ceil(2.5*2 + 0.5) + 1` gives 13, so the claim is false as stated. -/
theorem C7_kernel_size_counterexample :
    (gaussian_kernel_size 2 : ℤ) = 11 ∧ claimed_kernel_size 2 = 13 ∧
    (gaussian_kernel_size 2 : ℤ) ≠ claimed_kernel_size 2 := by
  have h2 : claimed_kernel_size 2 = 13 := by
    rw [claimed_kernel_size]
    rw [show (2.5 * (2 : ℕ) + 0.5 : ℚ) = 11 / 2 by norm_num]
    rw [show ⌈(11 / 2 : ℚ)⌉ = 6 from by
      rw [Int.ceil_eq_iff]
      norm_num]
    norm_num
  refine ⟨by norm_num [gaussian_kernel_size], h2, by norm_num [gaussian_kernel_size, h2]⟩

/-- C7 (amended): the horizontal and vertical Gaussian blurs are applied
independently, each using a kernel of size `2 * int(2.5*radius + 0.5) + 1`
(i.e. `2 * floor(2.5*radius + 0.5) + 1`, truncation rather than ceiling)
computed from its own radius, and a radius of zero skips that axis entirely. -/
theorem C7_mask_blur_independent_axes (Mask : Type) (ops : GaussianBlurOps Mask)
    (x y : ℕ) (m : Mask) :
    apply_mask_blur ops 0 y m =
      (if y > 0 then ops.blurV (gaussian_kernel_size y) y m else m) ∧
    apply_mask_blur ops x 0 m =
      (if x > 0 then ops.blurH (gaussian_kernel_size x) x m else m) ∧
    apply_mask_blur ops x y m = apply_mask_blur ops 0 y (apply_mask_blur ops x 0 m) ∧
    (gaussian_kernel_size x : ℤ) = 2 * ⌊(2.5 * x + 0.5 : ℚ)⌋ + 1 := by
  refine ⟨by simp [apply_mask_blur], by simp [apply_mask_blur], by simp [apply_mask_blur], ?_⟩
  have h1 : (2.5 * x + 0.5 : ℚ) = ((5 * x + 1 : ℕ) : ℚ) / ((2 : ℕ) : ℚ) := by
    push_cast
    ring
  rw [gaussian_kernel_size, h1, Rat.floor_natCast_div_natCast]
  omega

/-! ## Hires second-pass sampler substitution (txt2img `sample`, lines 1412-1420) -/

/-- Python `a or b` for an optional string `a` (`None` and `""` are falsy). -/
def py_or_str (a : Option String) (b : String) : String :=
  match a with
  | none => b
  | some s => if s = "" then b else s

/-- Samplers that support continuation (image-to-image) sampling, per the
source comment `PLMS/UniPC do not support img2img so we just silently switch
to DDIM`. -/
def sampler_supports_img2img (s : String) : Bool := ¬(s = "PLMS" ∨ s = "UniPC")

/-- Embedding of lines 1412-1418: the second-pass sampler name is
`self.hr_sampler_name or self.sampler_name`, silently replaced by `"DDIM"`
when the base `sampler_name` is `PLMS` or `UniPC`. -/
def hr_second_pass_sampler (sampler_name : String) (hr_sampler_name : Option String) : String :=
  let img2img_sampler_name := py_or_str hr_sampler_name sampler_name
  if sampler_name = "PLMS" ∨ sampler_name = "UniPC" then "DDIM" else img2img_sampler_name

/-- The pair of samplers used by txt2img `sample`: the base pass is created
from `self.sampler_name` (line 1323), the hires pass from the possibly
substituted name (line 1420). -/
def sample_pass_samplers (sampler_name : String) (hr_sampler_name : Option String) :
    String × String :=
  (sampler_name, hr_second_pass_sampler sampler_name hr_sampler_name)

/-- C8: when the configured base sampler does not support continuation
sampling, a known-compatible sampler (`DDIM`) is silently substituted for the
second pass only — the base pass keeps its configured sampler — and the
substitution happens exactly when the base sampler is incompatible. -/
theorem C8_hr_sampler_substitution (sampler_name : String) (hr_sampler_name : Option String) :
    (sample_pass_samplers sampler_name hr_sampler_name).1 = sampler_name ∧
    (sampler_supports_img2img sampler_name = false →
      (sample_pass_samplers sampler_name hr_sampler_name).2 = "DDIM" ∧
      sampler_supports_img2img "DDIM" = true) ∧
    (sampler_supports_img2img sampler_name = true →
      (sample_pass_samplers sampler_name hr_sampler_name).2 =
        py_or_str hr_sampler_name sampler_name) := by
  refine ⟨rfl, ?_, ?_⟩
  · intro h
    have hin : sampler_name = "PLMS" ∨ sampler_name = "UniPC" := by
      by_contra hc
      simp [sampler_supports_img2img, hc] at h
    exact ⟨by simp [sample_pass_samplers, hr_second_pass_sampler, hin], by decide⟩
  · intro h
    have hout : ¬(sampler_name = "PLMS" ∨ sampler_name = "UniPC") := by
      intro hc
      simp [sampler_supports_img2img, hc] at h
    simp [sample_pass_samplers, hr_second_pass_sampler, hout]

/-- C8 witness: base sampler `PLMS` with an explicitly configured hires
sampler still yields `DDIM` for the second pass and `PLMS` for the base pass. -/
theorem C8_hr_sampler_substitution_witness :
    (sample_pass_samplers "PLMS" (some "Euler a")).1 = "PLMS" ∧
    (sample_pass_samplers "PLMS" (some "Euler a")).2 = "DDIM" := by
  refine ⟨(C8_hr_sampler_substitution "PLMS" (some "Euler a")).1, ?_⟩
  exact ((C8_hr_sampler_substitution "PLMS" (some "Euler a")).2.1 (by decide)).1

/-! ## Latent decode with NaN check (`decode_latent_batch`, lines 691-723) -/

/-- The VAE float width relevant to the retry logic: `devices.dtype_vae` is
either already `torch.float32` or some lower precision. -/
inductive VaeDType where
  | f32
  | lower
deriving DecidableEq

/-- The external VAE decoder and NaN test: `decode d x` stands for
`decode_first_stage(model, x)` with `devices.dtype_vae = d`, and `has_nans s`
for `devices.test_for_nans(s, "vae")` raising `NansException`. -/
structure VaeEnv (L S : Type) where
  decode : VaeDType → L → S
  has_nans : S → Bool
  auto_vae_precision : Bool

/-- Embedding of `decode_latent_batch`.  The loop threads `devices.dtype_vae`
(mutated by the retry) through the remaining items; a `NansException` at full
precision, or with `auto_vae_precision` off, propagates as `.error`; otherwise
the decode is retried once at `f32` and the retried sample is appended without
a further NaN check. -/
def decode_latent_batch (env : VaeEnv L S) (check_for_nans : Bool) :
    VaeDType → List L → Except String (List S × VaeDType)
  | dtype, [] => .ok ([], dtype)
  | dtype, x :: rest =>
    let sample := env.decode dtype x
    if check_for_nans ∧ env.has_nans sample then
      if dtype = .f32 ∨ ¬env.auto_vae_precision then .error "NansException"
      else
        let sample := env.decode .f32 x
        match decode_latent_batch env check_for_nans .f32 rest with
        | .error e => .error e
        | .ok (samples, dty) => .ok (sample :: samples, dty)
    else
      match decode_latent_batch env check_for_nans dtype rest with
      | .error e => .error e
      | .ok (samples, dty) => .ok (sample :: samples, dty)

/-- C9 counterexample: with automatic precision promotion enabled and a decoder
that still produces NaNs at 32-bit float, the retry's non-finite result is
accepted and returned — the run succeeds with `.ok`, while the claim says the
error propagates to the caller. -/
theorem C9_nan_retry_counterexample :
    let env : VaeEnv Unit Unit := ⟨fun _ _ => (), fun _ => true, true⟩
    decode_latent_batch env true .lower [()] = .ok ([()], .f32) ∧
    env.has_nans (env.decode .f32 ()) = true := by
  constructor
  · rfl
  · rfl

/-- C9 (amended): when a decoded sample is non-finite, the decode is retried
exactly once after forcing 32-bit float and the retried sample is used without
a further NaN check (a still-non-finite retry result does not raise); when the
decode is already at full precision or automatic promotion is disabled, the
original error propagates without retry; without NaNs the sample passes
through at the current precision. -/
theorem C9_nan_retry (L S : Type) (env : VaeEnv L S) (dtype : VaeDType)
    (x : L) (rest : List L) :
    (env.has_nans (env.decode dtype x) = true →
      (dtype = .f32 ∨ env.auto_vae_precision = false) →
      decode_latent_batch env true dtype (x :: rest) = .error "NansException") ∧
    (env.has_nans (env.decode .lower x) = true → env.auto_vae_precision = true →
      decode_latent_batch env true .lower (x :: rest) =
        (match decode_latent_batch env true .f32 rest with
         | .error e => .error e
         | .ok (samples, dty) => .ok (env.decode .f32 x :: samples, dty))) ∧
    (env.has_nans (env.decode dtype x) = false →
      decode_latent_batch env true dtype (x :: rest) =
        (match decode_latent_batch env true dtype rest with
         | .error e => .error e
         | .ok (samples, dty) => .ok (env.decode dtype x :: samples, dty))) := by
  refine ⟨?_, ?_, ?_⟩
  · intro hnan hstop
    rw [decode_latent_batch]
    rw [if_pos ⟨rfl, hnan⟩, if_pos]
    rcases hstop with h | h
    · exact Or.inl h
    · exact Or.inr (by simp [h])
  · intro hnan hauto
    rw [decode_latent_batch]
    rw [if_pos ⟨rfl, hnan⟩, if_neg]
    simp [hauto]
  · intro hnonan
    rw [decode_latent_batch]
    rw [if_neg]
    simp [hnonan]

/-- C9 witness: a decoder whose lower-precision output has NaNs but whose
32-bit output is clean retries once and succeeds; the same decoder with
promotion disabled propagates the error. -/
theorem C9_nan_retry_witness :
    decode_latent_batch
      (⟨fun d _ => d, fun s => s = .lower, true⟩ : VaeEnv Unit VaeDType) true
      .lower [()] = .ok ([.f32], .f32) ∧
    decode_latent_batch
      (⟨fun d _ => d, fun s => s = .lower, false⟩ : VaeEnv Unit VaeDType) true
      .lower [()] = .error "NansException" := by
  constructor
  · have h := (C9_nan_retry Unit VaeDType ⟨fun d _ => d, fun s => s = .lower, true⟩
      .lower () []).2.1 (by decide) rfl
    rw [h]
    rfl
  · exact (C9_nan_retry Unit VaeDType ⟨fun d _ => d, fun s => s = .lower, false⟩
      .lower () []).1 (by decide) (Or.inr rfl)

/-! ## `Processed.__init__` scalar normalization (lines 536-614) -/

/-- A Python prompt value: a scalar string or a list of strings. -/
inductive PyPrompt where
  | str (s : String)
  | list (xs : List String)
deriving DecidableEq

/-- A Python seed value as `Processed.__init__` receives it: an integer, a
list of integers, or `None`. -/
inductive PySeed where
  | int (n : ℤ)
  | list (xs : List ℤ)
  | pynone
deriving DecidableEq

/-- Line 590: `self.prompt = self.prompt if type(self.prompt) != list else self.prompt[0]`.
`none` is the `IndexError` of `[][0]`. -/
def processed_norm_prompt : PyPrompt → Option String
  | .str s => some s
  | .list xs => xs.head?

/-- Lines 596-600: `self.seed = (int(self.seed if type(self.seed) != list else
self.seed[0]) if self.seed is not None else -1)` (same for `subseed`). -/
def processed_norm_seed : PySeed → Option ℤ
  | .int n => some n
  | .list xs => xs.head?
  | .pynone => some (-1)

/-- Python `a or b or c` where `a` and `b` are list-or-`None` (falsy when
`None` or empty) and `c` is a list, as in lines 608-613. -/
def py_first_truthy_list (a b : Option (List α)) (c : List α) : List α :=
  match a with
  | some (x :: xs) => x :: xs
  | _ =>
    match b with
    | some (y :: ys) => y :: ys
    | _ => c

/-- The constructor arguments and request fields that the scalar
normalization of `Processed.__init__` reads. -/
structure ProcessedArgs where
  p_prompt : PyPrompt
  p_negative_prompt : PyPrompt
  seed : PySeed
  subseed : PySeed
  all_prompts : Option (List String)
  all_negative_prompts : Option (List String)
  all_seeds : Option (List ℤ)
  all_subseeds : Option (List ℤ)
  p_all_prompts : Option (List String)
  p_all_negative_prompts : Option (List String)
  p_all_seeds : Option (List ℤ)
  p_all_subseeds : Option (List ℤ)

/-- The normalized fields produced by `Processed.__init__`. -/
structure ProcessedNorm where
  prompt : String
  negative_prompt : String
  seed : ℤ
  subseed : ℤ
  all_prompts : List String
  all_negative_prompts : List String
  all_seeds : List ℤ
  all_subseeds : List ℤ
deriving DecidableEq

/-- Embedding of the normalization tail of `Processed.__init__`
(lines 590-613): scalarize prompt/negative prompt/seed/subseed, then default
each `all_*` field to the constructor argument, else the request's field, else
the singleton of the normalized scalar. -/
def processed_init (a : ProcessedArgs) : Option ProcessedNorm := do
  let prompt ← processed_norm_prompt a.p_prompt
  let negative_prompt ← processed_norm_prompt a.p_negative_prompt
  let seed ← processed_norm_seed a.seed
  let subseed ← processed_norm_seed a.subseed
  pure
    { prompt := prompt
      negative_prompt := negative_prompt
      seed := seed
      subseed := subseed
      all_prompts := py_first_truthy_list a.all_prompts a.p_all_prompts [prompt]
      all_negative_prompts :=
        py_first_truthy_list a.all_negative_prompts a.p_all_negative_prompts [negative_prompt]
      all_seeds := py_first_truthy_list a.all_seeds a.p_all_seeds [seed]
      all_subseeds := py_first_truthy_list a.all_subseeds a.p_all_subseeds [subseed] }

/-- C10: `Processed` normalizes its reported scalars at construction — a
scalar prompt or negative prompt passes through and a list reports its first
element; a scalar seed or subseed passes through, a list reports its first
element, and `None` reports `-1` — the constructed result's `prompt`,
`negative_prompt`, `seed` and `subseed` are exactly these normalizations of
the request's values, and each of the four `all_*` fields defaults to the
singleton of its normalized scalar when neither the constructor argument nor
the request supplies a non-empty list. -/
theorem C10_processed_normalization (a : ProcessedArgs) (r : ProcessedNorm)
    (s : String) (xs : List String) (n : ℤ) (ns : List ℤ)
    (hr : processed_init a = some r) :
    (processed_norm_prompt (.str s) = some s ∧
     processed_norm_prompt (.list (s :: xs)) = some s ∧
     processed_norm_seed (.int n) = some n ∧
     processed_norm_seed (.list (n :: ns)) = some n ∧
     processed_norm_seed .pynone = some (-1)) ∧
    (processed_norm_prompt a.p_prompt = some r.prompt ∧
     processed_norm_prompt a.p_negative_prompt = some r.negative_prompt ∧
     processed_norm_seed a.seed = some r.seed ∧
     processed_norm_seed a.subseed = some r.subseed) ∧
    ((a.all_prompts = none ∨ a.all_prompts = some []) →
      (a.p_all_prompts = none ∨ a.p_all_prompts = some []) →
      r.all_prompts = [r.prompt]) ∧
    ((a.all_negative_prompts = none ∨ a.all_negative_prompts = some []) →
      (a.p_all_negative_prompts = none ∨ a.p_all_negative_prompts = some []) →
      r.all_negative_prompts = [r.negative_prompt]) ∧
    ((a.all_seeds = none ∨ a.all_seeds = some []) →
      (a.p_all_seeds = none ∨ a.p_all_seeds = some []) →
      r.all_seeds = [r.seed]) ∧
    ((a.all_subseeds = none ∨ a.all_subseeds = some []) →
      (a.p_all_subseeds = none ∨ a.p_all_subseeds = some []) →
      r.all_subseeds = [r.subseed]) := by
  rw [processed_init] at hr
  simp only [Option.bind_eq_bind, Option.bind_eq_some, Option.pure_def,
    Option.some.injEq] at hr
  obtain ⟨p, hp, np, hnp, sd, hsd, sb, hsb, hrr⟩ := hr
  subst hrr
  refine ⟨⟨rfl, rfl, rfl, rfl, rfl⟩, ⟨hp, hnp, hsd, hsb⟩, ?_, ?_, ?_, ?_⟩
  all_goals
    intro h1 h2
    rcases h1 with h1 | h1 <;> rcases h2 with h2 | h2 <;>
      simp [py_first_truthy_list, h1, h2]

/-- C10 witness: a concrete request with a scalar prompt, list negative
prompt, `None` seed and list subseed, with no usable `all_*` data, reports the
normalized scalars and the four singleton defaults. -/
theorem C10_processed_normalization_witness :
    ∃ r, processed_init
        ⟨.str "p", .list ["n1", "n2"], .pynone, .list [7, 8],
          none, some [], none, none, some [], none, none, some []⟩ = some r ∧
      r.prompt = "p" ∧ r.negative_prompt = "n1" ∧ r.seed = -1 ∧ r.subseed = 7 ∧
      r.all_prompts = ["p"] ∧ r.all_negative_prompts = ["n1"] ∧
      r.all_seeds = [-1] ∧ r.all_subseeds = [7] := by
  refine ⟨⟨"p", "n1", -1, 7, ["p"], ["n1"], [-1], [7]⟩, rfl, ?_⟩
  have h := C10_processed_normalization
    ⟨.str "p", .list ["n1", "n2"], .pynone, .list [7, 8],
      none, some [], none, none, some [], none, none, some []⟩
    ⟨"p", "n1", -1, 7, ["p"], ["n1"], [-1], [7]⟩ "s" [] 0 [] rfl
  exact ⟨rfl, rfl, rfl, rfl,
    h.2.2.1 (Or.inl rfl) (Or.inr rfl),
    h.2.2.2.1 (Or.inr rfl) (Or.inl rfl),
    h.2.2.2.2.1 (Or.inl rfl) (Or.inl rfl),
    h.2.2.2.2.2 (Or.inl rfl) (Or.inr rfl)⟩

/-! ## Hires target resolution (txt2img `init`, lines 1251-1284; `sample`, lines 1422-1427) -/

/-- The latent downscale factor of the model (`opt_f = 8`, line 45). -/
def opt_f : ℕ := 8

/-- The four fields derived by the resize branch of txt2img `init`:
`hr_upscale_to_x`, `hr_upscale_to_y`, `truncate_x`, `truncate_y`
(`truncate_*` stay at their `__init__` value 0 unless both resize values are
given). -/
structure HiresTarget where
  hr_upscale_to_x : ℕ
  hr_upscale_to_y : ℕ
  truncate_x : ℕ
  truncate_y : ℕ
deriving DecidableEq

/-- Embedding of lines 1251-1284.  `int(self.width * self.hr_scale)` is the
floor for the nonnegative operands in use; Python `//` on nonnegative
integers is `ℕ` division; the float comparison `src_ratio < dst_ratio` is
modelled exactly on `ℚ`. -/
def hr_compute_target (width height : ℕ) (hr_scale : ℚ) (hr_resize_x hr_resize_y : ℕ) :
    HiresTarget :=
  if hr_resize_x = 0 ∧ hr_resize_y = 0 then
    ⟨(⌊(width : ℚ) * hr_scale⌋).toNat, (⌊(height : ℚ) * hr_scale⌋).toNat, 0, 0⟩
  else if hr_resize_y = 0 then
    ⟨hr_resize_x, hr_resize_x * height / width, 0, 0⟩
  else if hr_resize_x = 0 then
    ⟨hr_resize_y * width / height, hr_resize_y, 0, 0⟩
  else if (width : ℚ) / (height : ℚ) < (hr_resize_x : ℚ) / (hr_resize_y : ℚ) then
    ⟨hr_resize_x, hr_resize_x * height / width,
      (hr_resize_x - hr_resize_x) / opt_f,
      (hr_resize_x * height / width - hr_resize_y) / opt_f⟩
  else
    ⟨hr_resize_y * width / height, hr_resize_y,
      (hr_resize_y * width / height - hr_resize_x) / opt_f,
      (hr_resize_y - hr_resize_y) / opt_f⟩

/-- The latent shape produced by the hires interpolation (line 1357):
`size=(target_height // opt_f, target_width // opt_f)`. -/
def hr_latent_dims (t : HiresTarget) : ℕ × ℕ :=
  (t.hr_upscale_to_y / opt_f, t.hr_upscale_to_x / opt_f)

/-- The symmetric latent crop of `sample` (lines 1422-1427):
`samples[:, :, ty//2 : H - (ty+1)//2, tx//2 : W - (tx+1)//2]`; a Python slice
`[a:b]` of a length-`n` axis keeps `b - a` elements, clamped at zero. -/
def hr_crop_dims (H W truncate_y truncate_x : ℕ) : ℕ × ℕ :=
  ((H - (truncate_y + 1) / 2) - truncate_y / 2, (W - (truncate_x + 1) / 2) - truncate_x / 2)

/-- C5: the refinement target is the explicit resize pair when either value is
non-zero, a zero dimension derived from the other through the base aspect
ratio; with both given and differing ratios the target covers the request
along the base ratio and `truncate_* = (upscale_target - requested_target) / 8`;
with both zero the target is width and height scaled by `hr_scale`; after
upscaling, the latent is cropped by the pre-computed truncation amounts (half
at each edge) so its dimensions match the requested target exactly. -/
theorem C5_hires_target_resolution (width height : ℕ) (hr_scale : ℚ)
    (rx ry : ℕ) (hw : 0 < width) (hh : 0 < height) :
    (rx = 0 → ry = 0 →
      hr_compute_target width height hr_scale rx ry =
        ⟨(⌊(width : ℚ) * hr_scale⌋).toNat, (⌊(height : ℚ) * hr_scale⌋).toNat, 0, 0⟩) ∧
    (rx ≠ 0 → ry = 0 →
      hr_compute_target width height hr_scale rx ry = ⟨rx, rx * height / width, 0, 0⟩) ∧
    (rx = 0 → ry ≠ 0 →
      hr_compute_target width height hr_scale rx ry = ⟨ry * width / height, ry, 0, 0⟩) ∧
    (rx ≠ 0 → ry ≠ 0 →
      rx ≤ (hr_compute_target width height hr_scale rx ry).hr_upscale_to_x ∧
      ry ≤ (hr_compute_target width height hr_scale rx ry).hr_upscale_to_y ∧
      (hr_compute_target width height hr_scale rx ry).truncate_x =
        ((hr_compute_target width height hr_scale rx ry).hr_upscale_to_x - rx) / opt_f ∧
      (hr_compute_target width height hr_scale rx ry).truncate_y =
        ((hr_compute_target width height hr_scale rx ry).hr_upscale_to_y - ry) / opt_f ∧
      (((hr_compute_target width height hr_scale rx ry).hr_upscale_to_x = rx ∧
        (hr_compute_target width height hr_scale rx ry).hr_upscale_to_y =
          rx * height / width) ∨
       ((hr_compute_target width height hr_scale rx ry).hr_upscale_to_x =
          ry * width / height ∧
        (hr_compute_target width height hr_scale rx ry).hr_upscale_to_y = ry)) ∧
      (8 ∣ rx → 8 ∣ ry →
        hr_crop_dims (hr_latent_dims (hr_compute_target width height hr_scale rx ry)).1
            (hr_latent_dims (hr_compute_target width height hr_scale rx ry)).2
            (hr_compute_target width height hr_scale rx ry).truncate_y
            (hr_compute_target width height hr_scale rx ry).truncate_x =
          (ry / opt_f, rx / opt_f))) := by
  refine ⟨?_, ?_, ?_, ?_⟩
  · intro hx hy
    simp [hr_compute_target, hx, hy]
  · intro hx hy
    simp [hr_compute_target, hx, hy]
  · intro hx hy
    simp [hr_compute_target, hx, hy]
  · intro hx hy
    by_cases hlt : (width : ℚ) / (height : ℚ) < (rx : ℚ) / (ry : ℚ)
    · have hwr : width * ry < rx * height := by
        have h1 : (width : ℚ) * ry < rx * height :=
          (div_lt_div_iff₀ (by exact_mod_cast hh) (by exact_mod_cast Nat.pos_of_ne_zero hy)).mp
            hlt
        exact_mod_cast h1
      have hcover : ry ≤ rx * height / width := by
        rw [Nat.le_div_iff_mul_le hw, Nat.mul_comm ry width]
        omega
      have ht : hr_compute_target width height hr_scale rx ry =
          ⟨rx, rx * height / width, (rx - rx) / opt_f,
            (rx * height / width - ry) / opt_f⟩ := by
        rw [hr_compute_target, if_neg (by tauto), if_neg hy, if_neg hx, if_pos hlt]
      rw [ht]
      refine ⟨le_refl rx, hcover, by simp, rfl, Or.inl ⟨rfl, rfl⟩, ?_⟩
      intro h8x h8y
      obtain ⟨k, rfl⟩ := h8x
      obtain ⟨m, rfl⟩ := h8y
      simp only [hr_latent_dims, hr_crop_dims, opt_f, Prod.mk.injEq]
      omega
    · have hwr : rx * height ≤ width * ry := by
        have h1 : (rx : ℚ) * height ≤ width * ry :=
          (div_le_div_iff₀ (by exact_mod_cast Nat.pos_of_ne_zero hy) (by exact_mod_cast hh)).mp
            (not_lt.mp hlt)
        exact_mod_cast h1
      have hcover : rx ≤ ry * width / height := by
        rw [Nat.le_div_iff_mul_le hh, Nat.mul_comm ry width]
        omega
      have ht : hr_compute_target width height hr_scale rx ry =
          ⟨ry * width / height, ry, (ry * width / height - rx) / opt_f,
            (ry - ry) / opt_f⟩ := by
        rw [hr_compute_target, if_neg (by tauto), if_neg hy, if_neg hx, if_neg hlt]
      rw [ht]
      refine ⟨hcover, le_refl ry, rfl, by simp, Or.inr ⟨rfl, rfl⟩, ?_⟩
      intro h8x h8y
      obtain ⟨k, rfl⟩ := h8x
      obtain ⟨m, rfl⟩ := h8y
      simp only [hr_latent_dims, hr_crop_dims, opt_f, Prod.mk.injEq]
      omega

set_option maxRecDepth 100000 in
/-- C5 witness: base 512x768 with explicit resize 1024x512 — the target covers
the request along the base ratio (1024x1536), `truncate_y = 128`, and the
cropped latent is exactly 512/8 high and 1024/8 wide. -/
theorem C5_hires_target_resolution_witness :
    (hr_compute_target 512 768 2 1024 512).truncate_y =
      ((hr_compute_target 512 768 2 1024 512).hr_upscale_to_y - 512) / opt_f ∧
    hr_crop_dims (hr_latent_dims (hr_compute_target 512 768 2 1024 512)).1
        (hr_latent_dims (hr_compute_target 512 768 2 1024 512)).2
        (hr_compute_target 512 768 2 1024 512).truncate_y
        (hr_compute_target 512 768 2 1024 512).truncate_x =
      (512 / opt_f, 1024 / opt_f) := by
  have h := (C5_hires_target_resolution 512 768 2 1024 512 (by norm_num)
    (by norm_num)).2.2.2 (by norm_num) (by norm_num)
  exact ⟨h.2.2.2.1, h.2.2.2.2.2 (by norm_num) (by norm_num)⟩

/-! ## Hires no-op policy (txt2img `init`, lines 1221-1312) -/

/-- Python dict assignment `d[k] = v` on an insertion-ordered association
list (overwrite in place, else append). -/
def dict_set (m : List (String × String)) (k v : String) : List (String × String) :=
  if m.any fun kv => kv.1 = k then
    m.map fun kv => if kv.1 = k then (k, v) else kv
  else m ++ [(k, v)]

/-- Python `d.pop(k, None)`: the entry with key `k` is removed. -/
def dict_pop (m : List (String × String)) (k : String) : List (String × String) :=
  m.filter fun kv => kv.1 ≠ k

/-- Python `k in d`. -/
def dict_has_key (m : List (String × String)) (k : String) : Bool :=
  m.any fun kv => kv.1 = k

/-- The fields of `StableDiffusionProcessingTxt2Img` read and written by the
hires part of `init` (lines 1221-1312). -/
structure HrParams where
  enable_hr : Bool
  width : ℕ
  height : ℕ
  hr_scale : ℚ
  hr_resize_x : ℕ
  hr_resize_y : ℕ
  hr_upscale_to_x : ℕ
  hr_upscale_to_y : ℕ
  truncate_x : ℕ
  truncate_y : ℕ
  hr_sampler_name : Option String
  sampler_name : String
  hr_prompt : String
  prompt : String
  hr_negative_prompt : String
  negative_prompt : String
  hr_second_pass_steps : ℕ
  hr_upscaler : Option String
  denoising_strength : Option ℚ
  extra_generation_params : List (String × String)

/-- Embedding of txt2img `init` (lines 1221-1312), modelled at the default
configuration `opts.use_old_hires_fix_width_height = false` (the old-behavior
branch lines 1237-1249 is skipped).  The state-job bookkeeping of
lines 1297-1306 touches only external progress state and is omitted. -/
def txt2img_init (p : HrParams) : HrParams :=
  if ¬p.enable_hr then p
  else
    let egp := p.extra_generation_params
    let egp :=
      match p.hr_sampler_name with
      | some s => if s ≠ p.sampler_name then dict_set egp "Hires sampler" s else egp
      | none => egp
    let egp :=
      if p.hr_prompt ≠ p.prompt then dict_set egp "Hires prompt" p.hr_prompt else egp
    let egp :=
      if p.hr_negative_prompt ≠ p.negative_prompt then
        dict_set egp "Hires negative prompt" p.hr_negative_prompt
      else egp
    let t := hr_compute_target p.width p.height p.hr_scale p.hr_resize_x p.hr_resize_y
    let egp :=
      if p.hr_resize_x = 0 ∧ p.hr_resize_y = 0 then
        dict_set egp "Hires upscale" (toString p.hr_scale)
      else
        dict_set egp "Hires resize"
          (toString p.hr_resize_x ++ "x" ++ toString p.hr_resize_y)
    let q := { p with
      hr_upscale_to_x := t.hr_upscale_to_x
      hr_upscale_to_y := t.hr_upscale_to_y
      truncate_x := t.truncate_x
      truncate_y := t.truncate_y
      extra_generation_params := egp }
    if q.hr_upscale_to_x = q.width ∧ q.hr_upscale_to_y = q.height then
      { q with
        enable_hr := false
        denoising_strength := none
        extra_generation_params :=
          dict_pop (dict_pop q.extra_generation_params "Hires upscale") "Hires resize" }
    else
      let egp :=
        if q.hr_second_pass_steps ≠ 0 then
          dict_set q.extra_generation_params "Hires steps" (toString q.hr_second_pass_steps)
        else q.extra_generation_params
      let egp :=
        match q.hr_upscaler with
        | some u => dict_set egp "Hires upscaler" u
        | none => egp
      { q with extra_generation_params := egp }

theorem dict_has_key_pop_self (m : List (String × String)) (k : String) :
    dict_has_key (dict_pop m k) k = false := by
  rw [dict_has_key, List.any_eq_false]
  intro kv hkv
  rw [dict_pop, List.mem_filter] at hkv
  simpa using hkv.2

theorem dict_has_key_pop_mono (m : List (String × String)) (k k2 : String)
    (h : dict_has_key m k = false) : dict_has_key (dict_pop m k2) k = false := by
  rw [dict_has_key, List.any_eq_false] at h
  rw [dict_has_key, List.any_eq_false]
  intro kv hkv
  rw [dict_pop, List.mem_filter] at hkv
  exact h kv hkv.1

/-- C6: when the computed refinement target equals the base resolution,
`init` silently disables the pass — `enable_hr` becomes false, the
refinement-only denoising strength is cleared, and the `Hires upscale` /
`Hires resize` keys are removed from the extra generation parameters. -/
theorem C6_hires_noop (p : HrParams)
    (hen : p.enable_hr = true)
    (heqx : (hr_compute_target p.width p.height p.hr_scale p.hr_resize_x
        p.hr_resize_y).hr_upscale_to_x = p.width)
    (heqy : (hr_compute_target p.width p.height p.hr_scale p.hr_resize_x
        p.hr_resize_y).hr_upscale_to_y = p.height) :
    (txt2img_init p).enable_hr = false ∧
    (txt2img_init p).denoising_strength = none ∧
    dict_has_key (txt2img_init p).extra_generation_params "Hires upscale" = false ∧
    dict_has_key (txt2img_init p).extra_generation_params "Hires resize" = false := by
  rw [txt2img_init]
  rw [if_neg (by simp [hen])]
  simp only
  rw [if_pos ⟨heqx, heqy⟩]
  refine ⟨rfl, rfl, ?_, ?_⟩
  · exact dict_has_key_pop_mono _ _ _ (dict_has_key_pop_self _ _)
  · exact dict_has_key_pop_self _ _

/-- C6 witness: hires enabled at scale 1 on a 512x512 base computes a 512x512
target and the pass is disabled with both keys absent. -/
theorem C6_hires_noop_witness :
    (txt2img_init
        ⟨true, 512, 512, 1, 0, 0, 0, 0, 0, 0, none, "Euler a", "", "", "", "", 0, none,
          some (3 / 4), []⟩).enable_hr = false ∧
    dict_has_key
      (txt2img_init
        ⟨true, 512, 512, 1, 0, 0, 0, 0, 0, 0, none, "Euler a", "", "", "", "", 0, none,
          some (3 / 4), []⟩).extra_generation_params "Hires upscale" = false := by
  have hx : (hr_compute_target 512 512 1 0 0).hr_upscale_to_x = 512 := by
    rw [hr_compute_target]
    norm_num
    decide
  have hy : (hr_compute_target 512 512 1 0 0).hr_upscale_to_y = 512 := by
    rw [hr_compute_target]
    norm_num
    decide
  have h := C6_hires_noop
    ⟨true, 512, 512, 1, 0, 0, 0, 0, 0, 0, none, "Euler a", "", "", "", "", 0, none,
      some (3 / 4), []⟩ rfl hx hy
  exact ⟨h.1, h.2.2.1⟩

/-! ## Batch loop and interrupt handling (`process_images_inner`, lines 955-1149) -/

/-- The data the iteration loop of `process_images_inner` reads.
`interrupted n` is the value of `state.interrupted` observed at the top of
iteration `n`; `batch_images n` / `batch_infotexts n` are the images and
infotexts the external sampler/decoder pipeline appends for iteration `n`
(one infotext per image). -/
structure LoopConfig (Img : Type) where
  n_iter : ℕ
  batch_size : ℕ
  all_prompts : List String
  all_seeds : List ℤ
  all_subseeds : List ℤ
  interrupted : ℕ → Bool
  batch_images : ℕ → List Img
  batch_infotexts : ℕ → List String

/-- Embedding of `for n in range(p.n_iter)` (lines 955-1124) restricted to the
state the claim observes: at the top of each iteration the interrupt flag is
read and a set flag breaks out of the loop at once; an empty prompt slice
`all_prompts[n*batch_size : (n+1)*batch_size]` also breaks; otherwise the
iteration's images and infotexts are appended and the loop continues. -/
def run_iters (cfg : LoopConfig Img) : List ℕ → List Img × List String
  | [] => ([], [])
  | n :: rest =>
    if cfg.interrupted n then ([], [])
    else if ((cfg.all_prompts.drop (n * cfg.batch_size)).take cfg.batch_size).isEmpty then
      ([], [])
    else
      (cfg.batch_images n ++ (run_iters cfg rest).1,
        cfg.batch_infotexts n ++ (run_iters cfg rest).2)

/-- The fields of the returned `Processed` the claim observes. -/
structure ProcessedSummary (Img : Type) where
  images : List Img
  infotexts : List String
  all_seeds : List ℤ
  seed : ℤ
  info : String

/-- Embedding of the loop plus the `Processed` construction of lines 1135-1144:
the result carries the accumulated `output_images` and `infotexts`, the full
`p.all_seeds`, `seed=p.all_seeds[0]` and `info=infotexts[0]` (an empty list
there raises `IndexError`, modelled as `.error`). -/
def process_images_inner_model (cfg : LoopConfig Img) :
    Except String (ProcessedSummary Img) :=
  let r := run_iters cfg (List.range cfg.n_iter)
  match cfg.all_seeds with
  | [] => .error "IndexError: all_seeds[0]"
  | s0 :: _ =>
    match r.2 with
    | [] => .error "IndexError: infotexts[0]"
    | i0 :: _ => .ok ⟨r.1, r.2, cfg.all_seeds, s0, i0⟩

theorem run_iters_append (Img : Type) (cfg : LoopConfig Img) (l1 l2 : List ℕ)
    (h : ∀ n ∈ l1, cfg.interrupted n = false ∧
      ((cfg.all_prompts.drop (n * cfg.batch_size)).take cfg.batch_size).isEmpty = false) :
    run_iters cfg (l1 ++ l2) =
      ((l1.map cfg.batch_images).flatten ++ (run_iters cfg l2).1,
        (l1.map cfg.batch_infotexts).flatten ++ (run_iters cfg l2).2) := by
  induction l1 with
  | nil => simp
  | cons n rest ih =>
    have hn := h n (List.mem_cons_self n rest)
    have hrest : ∀ x ∈ rest, cfg.interrupted x = false ∧
        ((cfg.all_prompts.drop (x * cfg.batch_size)).take cfg.batch_size).isEmpty = false :=
      fun x hx => h x (List.mem_cons_of_mem n hx)
    rw [List.cons_append, run_iters, if_neg (by simp [hn.1]), if_neg (by simp [hn.2]),
      ih hrest]
    simp

/-- C3 counterexample: a run with `n_iter=3`, `batch_size=1`,
`all_seeds=[42,43,44]`, the interrupt flag set from iteration 1 on, and
iteration `n` producing the single image `n`: the returned result carries the
images of iteration 0 only but the full seed list `[42, 43, 44]`, not
"exactly the seeds produced by the completed prior iterations" (`[42]`);
moreover the same request with the flag already set at the top of iteration 0
raises `IndexError` at `infotexts[0]` instead of returning a normal partial
result.  Both facts refute the claim as stated. -/
theorem C3_interrupt_counterexample :
    (process_images_inner_model
        (⟨3, 1, ["p", "p", "p"], [42, 43, 44], [45, 46, 47], fun n => decide (1 ≤ n),
          fun n => [n], fun _ => ["info"]⟩ : LoopConfig ℕ)).map
      (fun r => (r.images, r.all_seeds)) = .ok ([0], [42, 43, 44]) ∧
    ([42, 43, 44] : List ℤ) ≠ [42] ∧
    process_images_inner_model
        (⟨3, 1, ["p", "p", "p"], [42, 43, 44], [45, 46, 47], fun _ => true,
          fun n => [n], fun _ => ["info"]⟩ : LoopConfig ℕ) =
      .error "IndexError: infotexts[0]" := by
  refine ⟨rfl, by decide, rfl⟩

/-- C3 (amended): the interrupt flag is checked at the top of each iteration
before any work; when it first reads true at iteration `k` the loop exits
immediately.  For `k ≥ 1` the run still returns a normal result whose images
and infotexts are exactly those produced by the completed iterations `0..k-1`
(iteration `k` and later contribute nothing), while the reported `all_seeds`
remains the full per-image seed list of the request; for `k = 0` (flag
already set when the loop starts) nothing was produced and the result
construction raises `IndexError` at `infotexts[0]` instead of returning a
partial result.  In particular an interrupt set after iteration 0 of
`n_iter=3` yields exactly iteration 0's images. -/
theorem C3_interrupt_partial_result (Img : Type) (cfg : LoopConfig Img) (k : ℕ)
    (hk : k < cfg.n_iter)
    (hbefore : ∀ n, n < k → cfg.interrupted n = false)
    (hint : cfg.interrupted k = true)
    (hslice : ∀ n, n < k →
      ((cfg.all_prompts.drop (n * cfg.batch_size)).take cfg.batch_size).isEmpty = false)
    (hseeds : cfg.all_seeds ≠ [])
    (hinfo : 1 ≤ k → cfg.batch_infotexts 0 ≠ []) :
    (1 ≤ k →
      ∃ r, process_images_inner_model cfg = .ok r ∧
        r.images = ((List.range k).map cfg.batch_images).flatten ∧
        r.infotexts = ((List.range k).map cfg.batch_infotexts).flatten ∧
        r.all_seeds = cfg.all_seeds ∧
        r.seed = cfg.all_seeds.headI) ∧
    (k = 0 →
      process_images_inner_model cfg = .error "IndexError: infotexts[0]") := by
  obtain ⟨s0early, srestearly, hsearly⟩ : ∃ s0 srest, cfg.all_seeds = s0 :: srest := by
    cases hcs : cfg.all_seeds with
    | nil => exact absurd hcs hseeds
    | cons a l => exact ⟨a, l, rfl⟩
  refine ⟨?_, ?_⟩
  case refine_2 =>
    intro hk0
    subst hk0
    obtain ⟨m0, hm0⟩ : ∃ m0, cfg.n_iter = m0 + 1 := ⟨cfg.n_iter - 1, by omega⟩
    have hrun0 : run_iters cfg (List.range cfg.n_iter) = ([], []) := by
      rw [hm0, List.range_succ_eq_map, run_iters, if_pos hint]
    rw [process_images_inner_model]
    simp only [hrun0, hsearly]
  intro hk1
  obtain ⟨m, hm⟩ : ∃ m, cfg.n_iter - k = m + 1 :=
    ⟨cfg.n_iter - k - 1, by omega⟩
  have hsplit : List.range cfg.n_iter =
      List.range k ++ List.map (fun x => k + x) (List.range (m + 1)) := by
    rw [← hm, ← List.range_add]
    congr 1
    omega
  have hrun : run_iters cfg (List.range cfg.n_iter) =
      (((List.range k).map cfg.batch_images).flatten,
        ((List.range k).map cfg.batch_infotexts).flatten) := by
    rw [hsplit, run_iters_append Img cfg _ _
      (fun n hn => ⟨hbefore n (List.mem_range.mp hn), hslice n (List.mem_range.mp hn)⟩)]
    rw [List.range_succ_eq_map]
    simp only [List.map_cons, run_iters, Nat.add_zero, hint]
    simp
  obtain ⟨s0, srest, hs⟩ : ∃ s0 srest, cfg.all_seeds = s0 :: srest := by
    cases hcs : cfg.all_seeds with
    | nil => exact absurd hcs hseeds
    | cons a l => exact ⟨a, l, rfl⟩
  have hjoin : ∃ i0 irest,
      ((List.range k).map cfg.batch_infotexts).flatten = i0 :: irest := by
    obtain ⟨j, hj⟩ : ∃ j, k = j + 1 := ⟨k - 1, by omega⟩
    rw [hj, List.range_succ_eq_map]
    cases hb : cfg.batch_infotexts 0 with
    | nil => exact absurd hb (hinfo hk1)
    | cons b bl =>
      exact ⟨b, bl ++ (List.map (cfg.batch_infotexts ∘ Nat.succ) (List.range j)).flatten,
        by simp [hb]⟩
  obtain ⟨i0, irest, hi⟩ := hjoin
  refine ⟨⟨((List.range k).map cfg.batch_images).flatten,
    ((List.range k).map cfg.batch_infotexts).flatten, cfg.all_seeds, s0, i0⟩, ?_, rfl, rfl, rfl, ?_⟩
  · rw [process_images_inner_model]
    simp only [hrun, hs, hi]
  · rw [hs]
    rfl

/-- C3 witness: the amended theorem applied to the counterexample's
configurations — interrupt first set at iteration `k = 1` of 3 returns
exactly iteration 0's images with the full seed list, and interrupt already
set at iteration `k = 0` raises the `IndexError`. -/
theorem C3_interrupt_partial_result_witness :
    (∃ r, process_images_inner_model
        (⟨3, 1, ["p", "p", "p"], [42, 43, 44], [45, 46, 47], fun n => decide (1 ≤ n),
          fun n => [n], fun _ => ["info"]⟩ : LoopConfig ℕ) = .ok r ∧
      r.images = [0] ∧ r.all_seeds = [42, 43, 44]) ∧
    process_images_inner_model
        (⟨3, 1, ["p", "p", "p"], [42, 43, 44], [45, 46, 47], fun _ => true,
          fun n => [n], fun _ => ["info"]⟩ : LoopConfig ℕ) =
      .error "IndexError: infotexts[0]" := by
  constructor
  · obtain ⟨r, hok, him, hinf, hse, hs0⟩ := (C3_interrupt_partial_result ℕ
      ⟨3, 1, ["p", "p", "p"], [42, 43, 44], [45, 46, 47], fun n => decide (1 ≤ n),
        fun n => [n], fun _ => ["info"]⟩ 1
      (by norm_num)
      (by intro n hn; interval_cases n; rfl)
      rfl
      (by intro n hn; interval_cases n; rfl)
      (by simp)
      (fun _ => by simp)).1 (le_refl 1)
    exact ⟨r, hok, by rw [him]; rfl, hse⟩
  · exact (C3_interrupt_partial_result ℕ
      ⟨3, 1, ["p", "p", "p"], [42, 43, 44], [45, 46, 47], fun _ => true,
        fun n => [n], fun _ => ["info"]⟩ 0
      (by norm_num)
      (by intro n hn; exact absurd hn (Nat.not_lt_zero n))
      rfl
      (by intro n hn; exact absurd hn (Nat.not_lt_zero n))
      (by simp)
      (by intro h; exact absurd h (by decide))).2 rfl

end Processing
